import Mathlib

/-!
Verification of the tinyclaw queue processor and orchestration engine.

This file shallowly embeds the TypeScript source of the repository
(`src/lib/config.ts`, `src/lib/invoke.ts`, `src/lib/runner.ts`, and the
queue-processor module) into Lean 4 and proves or refutes the frozen
claims about it.  Strings are modelled by Lean `String`; JavaScript
string operations are re-implemented on the underlying character list so
that every definition is executable and kernel-reducible.  Filesystem
effects are modelled by explicit operation lists or by boolean
existence oracles.
-/

namespace Tinyclaw

/-! ## JavaScript string primitives, modelled on character lists -/

/-- JavaScript `String.prototype.trim()`: drop leading and trailing
whitespace. Modelled on the character list. -/
def jsTrim (s : String) : String :=
  String.mk (((s.data.dropWhile Char.isWhitespace).reverse.dropWhile Char.isWhitespace).reverse)

/-- JavaScript `String.prototype.toLowerCase()` restricted to ASCII,
as used by `classifyContainerFailure`. -/
def lowerStr (s : String) : String :=
  String.mk (s.data.map Char.toLower)

/-- Substring test on character lists: `needle` occurs somewhere in `hay`.
Models JavaScript `String.prototype.includes`. -/
def hasSubstr (needle : List Char) : List Char → Bool
  | [] => needle.isEmpty
  | c :: t => needle.isPrefixOf (c :: t) || hasSubstr needle t

/-- JavaScript `hay.includes(needle)`. -/
def strIncludes (hay needle : String) : Bool :=
  hasSubstr needle.data hay.data

/-- JavaScript `s.startsWith(p)`. -/
def strStartsWith (s p : String) : Bool :=
  p.data.isPrefixOf s.data

/-- JavaScript `s.endsWith(p)`. -/
def strEndsWith (s p : String) : Bool :=
  p.data.isSuffixOf s.data

/-- JavaScript `s.substring(0, n)` (also `s.slice(0, n)`), with characters
standing in for UTF-16 code units. -/
def jsSubstring (s : String) (n : Nat) : String :=
  String.mk (s.data.take n)

/-- JavaScript `s.slice(n)`: drop the first `n` characters. -/
def jsSliceFrom (s : String) (n : Nat) : String :=
  String.mk (s.data.drop n)

/-- Node `path.isAbsolute` on POSIX: the path starts with `/`. -/
def isAbsolutePath (s : String) : Bool :=
  match s.data with
  | [] => false
  | c :: _ => c = '/'

/-- Node `path.join(a, b)` for a nonempty relative tail `b`, without
`..` normalisation (the queue processor never passes `..` segments). -/
def joinPath (a b : String) : String :=
  if strEndsWith a "/" then a ++ b else a ++ "/" ++ b

/-! ## JavaScript `||` defaulting helpers

`x || d` yields `d` when `x` is falsy. For numbers the falsy values are
`0` (and absence); for strings the empty string (and absence). These
helpers model field access `configured.f || DEFAULT.f` where the field
is optional. -/

/-- `x || d` for an optional number field: `0` and absence are falsy. -/
def jsOrNat (x : Option Nat) (d : Nat) : Nat :=
  match x with
  | some n => if n = 0 then d else n
  | none => d

/-- `x || d` for an optional string field: `""` and absence are falsy. -/
def jsOrStr (x : Option String) (d : String) : String :=
  match x with
  | some s => if s = "" then d else s
  | none => d

/-! ## Data model (`src/lib/types.ts`) -/

/-- `SandboxMode` from `types.ts`. -/
inductive SandboxMode where
  | host
  | docker
  | apple
deriving DecidableEq, Repr

/-- `ErrorClass` from `runner.ts`: `'terminal' | 'transient'`. -/
inductive ErrClass where
  | terminal
  | transient
deriving DecidableEq, Repr

/-- `AgentConfig` from `types.ts`. -/
structure AgentConfig where
  name : String
  provider : String
  model : String
  working_directory : String
  sandbox_mode : Option SandboxMode := none
deriving DecidableEq, Repr

/-- The optional `sandbox.docker` sub-config from `types.ts`
(`SandboxDockerConfig`). -/
structure SandboxDockerConfigIn where
  image : Option String := none
  network : Option String := none
  memory : Option String := none
  cpus : Option String := none
  pids_limit : Option Nat := none
deriving DecidableEq, Repr

/-- The optional `sandbox.apple` sub-config from `types.ts`
(`SandboxAppleConfig`). -/
structure SandboxAppleConfigIn where
  runtime_command : Option String := none
  image : Option String := none
  network : Option String := none
  memory : Option String := none
  cpus : Option String := none
deriving DecidableEq, Repr

/-- The raw `sandbox` section of a settings document (`SandboxConfig`
from `types.ts`); every field optional. -/
structure SandboxConfigIn where
  mode : Option SandboxMode := none
  timeout_seconds : Option Nat := none
  max_attempts : Option Nat := none
  max_concurrency : Option Nat := none
  env_allowlist : Option (List String) := none
  path_mapping_mode : Option String := none
  docker : Option SandboxDockerConfigIn := none
  apple : Option SandboxAppleConfigIn := none
deriving DecidableEq, Repr

/-- The part of the `Settings` document consulted by `getSandboxConfig`. -/
structure SettingsSandboxView where
  sandbox : Option SandboxConfigIn := none
deriving DecidableEq, Repr

/-- `NormalizedSandboxConfig` from `types.ts` (docker sub-record). -/
structure NormalizedDocker where
  image : String
  network : String
  memory : String
  cpus : String
  pids_limit : Nat
deriving DecidableEq, Repr

/-- `NormalizedSandboxConfig` from `types.ts` (apple sub-record). -/
structure NormalizedApple where
  runtime_command : String
  image : String
  network : String
  memory : String
  cpus : String
deriving DecidableEq, Repr

/-- `NormalizedSandboxConfig` from `types.ts`. -/
structure NormalizedSandboxConfig where
  mode : SandboxMode
  timeout_seconds : Nat
  max_attempts : Nat
  max_concurrency : Nat
  env_allowlist : List String
  path_mapping_mode : String
  docker : NormalizedDocker
  apple : NormalizedApple
deriving DecidableEq, Repr

/-! ## Config store (`src/lib/config.ts`) -/

/-- `DEFAULT_SANDBOX` from `config.ts`. -/
def DEFAULT_SANDBOX : NormalizedSandboxConfig where
  mode := SandboxMode.host
  timeout_seconds := 600
  max_attempts := 3
  max_concurrency := 0
  env_allowlist := ["ANTHROPIC_API_KEY", "OPENAI_API_KEY"]
  path_mapping_mode := "mapped"
  docker := {
    image := "tinyclaw/agent-runner:latest"
    network := "default"
    memory := "2g"
    cpus := "1.0"
    pids_limit := 256 }
  apple := {
    runtime_command := "apple-container"
    image := "tinyclaw/agent-runner:latest"
    network := "default"
    memory := "2g"
    cpus := "1.0" }

/-- `getSandboxConfig(settings, agent?)` from `config.ts`: resolve and
normalize the sandbox configuration, merging defaults via JavaScript
`||` defaulting (so `0` and `""` fall back to the default). The mode
resolution `agent?.sandbox_mode || configured.mode || DEFAULT.mode` is
modelled with `Option.getD`-style matches (modes are not falsy). -/
def getSandboxConfig (settings : SettingsSandboxView) (agent : Option AgentConfig := none) :
    NormalizedSandboxConfig :=
  let configured := settings.sandbox.getD {}
  let mode :=
    match agent.bind (fun a => a.sandbox_mode) with
    | some m => m
    | none => configured.mode.getD DEFAULT_SANDBOX.mode
  let allowlist :=
    match configured.env_allowlist with
    | some l => if l.length > 0 then l else DEFAULT_SANDBOX.env_allowlist
    | none => DEFAULT_SANDBOX.env_allowlist
  let dockerIn := configured.docker.getD {}
  let appleIn := configured.apple.getD {}
  { mode := mode
    timeout_seconds := jsOrNat configured.timeout_seconds DEFAULT_SANDBOX.timeout_seconds
    max_attempts := jsOrNat configured.max_attempts DEFAULT_SANDBOX.max_attempts
    max_concurrency := jsOrNat configured.max_concurrency DEFAULT_SANDBOX.max_concurrency
    env_allowlist := allowlist
    path_mapping_mode := jsOrStr configured.path_mapping_mode DEFAULT_SANDBOX.path_mapping_mode
    docker := {
      image := jsOrStr dockerIn.image DEFAULT_SANDBOX.docker.image
      network := jsOrStr dockerIn.network DEFAULT_SANDBOX.docker.network
      memory := jsOrStr dockerIn.memory DEFAULT_SANDBOX.docker.memory
      cpus := jsOrStr dockerIn.cpus DEFAULT_SANDBOX.docker.cpus
      pids_limit := jsOrNat dockerIn.pids_limit DEFAULT_SANDBOX.docker.pids_limit }
    apple := {
      runtime_command := jsOrStr appleIn.runtime_command DEFAULT_SANDBOX.apple.runtime_command
      image := jsOrStr appleIn.image DEFAULT_SANDBOX.apple.image
      network := jsOrStr appleIn.network DEFAULT_SANDBOX.apple.network
      memory := jsOrStr appleIn.memory DEFAULT_SANDBOX.apple.memory
      cpus := jsOrStr appleIn.cpus DEFAULT_SANDBOX.apple.cpus } }

/-! ## Codex output parsing (`src/lib/invoke.ts`) -/

/-- One parsed NDJSON line of Codex stdout, as inspected by
`parseCodexResponse`: `json.type`, `json.item?.type` and
`json.item.text`.  Fields that are absent in the JSON (`undefined`)
are modelled by `""`, which is falsy in JavaScript exactly like the
empty string, and by `""` for the `item.type` check, which then simply
fails the equality test just as `undefined` does. -/
structure CodexLine where
  type : String
  itemType : String
  text : String
deriving DecidableEq, Repr

/-- The loop body of `parseCodexResponse` (`invoke.ts` lines 40-49):
keep the `text` of a matching line, otherwise keep the accumulator. -/
def codexUpdate (acc : String) (l : Option CodexLine) : String :=
  match l with
  | some j =>
    if j.type == "item.completed" && j.itemType == "agent_message" then j.text else acc
  | none => acc

/-- `parseCodexResponse(codexOutput)` from `invoke.ts`, modelled at the
level of the already-split NDJSON lines: `none` stands for a line that
`JSON.parse` rejects (skipped by the `catch`).  The loop keeps the
`text` of the **last** line with `type === 'item.completed'` and
`item.type === 'agent_message'`; a falsy final value (no match, or a
matching line whose `text` is empty/absent) yields the fixed fallback
string. -/
def parseCodexResponse (lines : List (Option CodexLine)) : String :=
  let response := lines.foldl codexUpdate ""
  if response = "" then "Sorry, I could not generate a response from Codex." else response

/-- The `text` values of the matching lines, in order: the lines with
`type === 'item.completed'` and `item.type === 'agent_message'`. -/
def codexMatchingTexts (lines : List (Option CodexLine)) : List String :=
  lines.filterMap
    (fun l =>
      match l with
      | some j =>
        if j.type == "item.completed" && j.itemType == "agent_message" then some j.text else none
      | none => none)

/-! ## Container failure classification (`src/lib/runner.ts`) -/

/-- `classifyContainerFailure(stderr)` from `runner.ts`: lowercase the
stderr and test the seven terminal signatures. -/
def classifyContainerFailure (stderr : String) : ErrClass :=
  let text := lowerStr stderr
  if strIncludes text "unknown flag" ||
      strIncludes text "no such file or directory" ||
      strIncludes text "not found" ||
      strIncludes text "invalid argument" ||
      strIncludes text "for \"--mount\" flag" ||
      strIncludes text "invalid reference format" ||
      strIncludes text "permission denied" then
    ErrClass.terminal
  else
    ErrClass.transient

/-- The spec's list of terminal stderr signatures, stated independently
of `classifyContainerFailure` for the iff in claim C6. -/
def terminalStderrPatterns : List String :=
  ["unknown flag", "no such file or directory", "not found", "invalid argument",
   "for \"--mount\" flag", "invalid reference format", "permission denied"]

/-- The result of a finished container process (`ProcessResult` from
`runner.ts`), after `runProcess` resolved. -/
structure ProcessResult where
  stdout : String
  stderr : String
  code : Int
  timedOut : Bool
deriving DecidableEq, Repr

/-- The error side of a container invocation: the classification and
user-safe message carried by the thrown `SandboxInvocationError`. -/
structure SandboxErrorModel where
  classification : ErrClass
  userMessage : String
deriving DecidableEq, Repr

/-- Printed name of a sandbox mode, for message interpolation. -/
def SandboxMode.str : SandboxMode → String
  | SandboxMode.host => "host"
  | SandboxMode.docker => "docker"
  | SandboxMode.apple => "apple"

/-- The tail of `runContainer` (`runner.ts` lines 325-352): once the
container process has finished, a timeout raises a transient error, a
non-zero exit raises an error classified by `classifyContainerFailure`,
and a zero exit succeeds with the collected stdout.  The thrown
`SandboxInvocationError`'s internal `message`/`remediation` strings are
not modelled; its classification and user message are. -/
def containerFinish (mode : SandboxMode) (result : ProcessResult) :
    Except SandboxErrorModel String :=
  if result.timedOut then
    Except.error
      { classification := ErrClass.transient
        userMessage := "Sandbox execution timed out. Please retry." }
  else if result.code ≠ 0 then
    let classification := classifyContainerFailure result.stderr
    Except.error
      { classification := classification
        userMessage :=
          if classification = ErrClass.terminal then
            "Sandbox runtime error in " ++ mode.str ++ " mode. Run \"tinyclaw sandbox doctor\"."
          else
            "Sandbox execution failed due to a transient runtime issue. Please retry." }
  else
    Except.ok result.stdout

/-! ## Queue data model (`src/lib/types.ts`) -/

/-- `MessageData` from `types.ts`. -/
structure MessageData where
  channel : String
  sender : String
  senderId : Option String := none
  message : String
  timestamp : Nat
  messageId : String
  agent : Option String := none
  files : Option (List String) := none
  attempt : Option Nat := none
  firstSeenAt : Option Nat := none
  errorClass : Option ErrClass := none
deriving DecidableEq, Repr

/-- `ResponseData` from `types.ts`. -/
structure ResponseData where
  channel : String
  sender : String
  message : String
  originalMessage : String
  timestamp : Nat
  messageId : String
  agent : Option String := none
  files : Option (List String) := none
deriving DecidableEq, Repr

/-- The dead-letter record written by `writeDeadLetter` in the queue
processor. -/
structure DeadLetterRecord where
  failedAt : String
  errorClass : ErrClass
  errorMessage : String
  attempt : Nat
  maxAttempts : Nat
  payload : Option MessageData
deriving DecidableEq, Repr

/-! ## Filesystem effect traces (queue processor write paths)

`writeOutgoingResponse` and `writeDeadLetter` are modelled by the exact
sequence of filesystem operations they perform.  File contents are kept
structurally (the `JSON.stringify` serialisation is not modelled; the
claims about these functions concern the operation pattern, not the
bytes). -/

/-- Structural content of a queue file write. -/
inductive QueueFileContent where
  | response (r : ResponseData)
  | deadLetterRec (d : DeadLetterRecord)
deriving DecidableEq, Repr

/-- A filesystem operation performed by the queue processor. -/
inductive FsOp where
  | write (path : String) (content : QueueFileContent)
  | rename (src : String) (dst : String)
  | unlink (path : String)
deriving DecidableEq, Repr

/-- `writeOutgoingResponse(channel, sender, message, originalMessage,
messageId, agentId?, files?)` from the queue processor: build the
`ResponseData`, pick the response filename (heartbeat vs. other
channels), and perform a single `fs.writeFileSync` to that final path.
`nowMs` stands for the two `Date.now()` reads (timestamp and filename
suffix). -/
def writeOutgoingResponseOps (outgoingDir channel sender message originalMessage messageId : String)
    (agentId : Option String) (files : Option (List String)) (nowMs : Nat) : List FsOp :=
  let responseData : ResponseData :=
    { channel := channel
      sender := sender
      message := message
      originalMessage := originalMessage
      timestamp := nowMs
      messageId := messageId
      agent := agentId
      files :=
        match files with
        | some fl => if fl.length > 0 then some fl else none
        | none => none }
  let responseFile :=
    if channel == "heartbeat" then joinPath outgoingDir (messageId ++ ".json")
    else joinPath outgoingDir (channel ++ "_" ++ messageId ++ "_" ++ toString nowMs ++ ".json")
  [FsOp.write responseFile (QueueFileContent.response responseData)]

/-- `writeDeadLetter(processingFile, payload, errorClass, errorMessage,
attempt, maxAttempts)` from the queue processor: build the dead-letter
record and perform a single `fs.writeFileSync` to
`dead-letter/<basename>_<epoch>.json`.  `processingBase` stands for
`path.basename(processingFile, '.json')`. -/
def writeDeadLetterOps (deadLetterDir processingBase : String) (payload : Option MessageData)
    (errorClass : ErrClass) (errorMessage : String) (attempt maxAttempts : Nat)
    (failedAt : String) (nowMs : Nat) : List FsOp :=
  let deadLetterFile := joinPath deadLetterDir (processingBase ++ "_" ++ toString nowMs ++ ".json")
  [FsOp.write deadLetterFile (QueueFileContent.deadLetterRec
    { failedAt := failedAt
      errorClass := errorClass
      errorMessage := errorMessage
      attempt := attempt
      maxAttempts := maxAttempts
      payload := payload })]

/-! ## Failure handling in `processMessage` (queue processor) -/

/-- Outcome of the `catch` handler of `processMessage`.
`requeue updated` stands for: rewrite `updated` into the processing
file, then rename it back into `incoming`.  `deadLetter record deleted`
stands for: write `record` into the dead-letter directory (and a
user-visible outgoing response), then delete the processing file when
it still exists (`deleted`). -/
inductive FailureOutcome where
  | requeue (updated : MessageData)
  | deadLetter (record : DeadLetterRecord) (processingDeleted : Bool)
deriving DecidableEq, Repr

/-- The decision logic of the `catch` handler of `processMessage`
(queue processor lines 503-539): compute `attempt = (attempt || 0) + 1`;
a transient error with `attempt < maxAttempts`, a parsed message and a
still-existing processing file is requeued with the incremented attempt
counter; everything else is dead-lettered with the record
`{failedAt, errorClass, errorMessage, attempt, maxAttempts, payload}`.
The synthesized user-visible outgoing response of the dead-letter path
is modelled separately by `writeOutgoingResponseOps`. -/
def handleProcessingFailure (errorClass : ErrClass) (safeError : String) (failedAt : String)
    (nowMs : Nat) (maxAttempts : Nat) (messageData : Option MessageData)
    (processingExists : Bool) : FailureOutcome :=
  let prevAttempt :=
    match messageData with
    | some md => md.attempt.getD 0
    | none => 0
  let attempt := prevAttempt + 1
  let terminal := errorClass = ErrClass.terminal
  let exceededRetries := attempt ≥ maxAttempts
  let deadRecord : DeadLetterRecord :=
    { failedAt := failedAt
      errorClass := if terminal then ErrClass.terminal else ErrClass.transient
      errorMessage := safeError
      attempt := attempt
      maxAttempts := maxAttempts
      payload := messageData }
  match messageData with
  | some md =>
    if ¬terminal ∧ ¬exceededRetries ∧ processingExists = true then
      FailureOutcome.requeue
        { md with
          attempt := some attempt
          errorClass := some ErrClass.transient
          firstSeenAt := some (jsOrNat md.firstSeenAt nowMs) }
    else
      FailureOutcome.deadLetter deadRecord processingExists
  | none =>
    FailureOutcome.deadLetter deadRecord processingExists

/-! ## Team chain execution (`processMessage`, team context branch) -/

/-- A teammate mention extracted from a step response
(`extractTeammateMentions` result entry). -/
structure Mention where
  teammateId : String
  message : String
deriving DecidableEq, Repr

/-- `ChainStep` from `types.ts`. -/
structure ChainStep where
  agentId : String
  response : String
deriving DecidableEq, Repr

/-- The handoff message `"[Message from teammate @<prev>]:\n<mention.message>"`
built in both the sequential and the fan-out branch. -/
def handoffMessage (prev mentionMsg : String) : String :=
  "[Message from teammate @" ++ prev ++ "]:\n" ++ mentionMsg

/-- One fan-out invocation from the `Promise.all` branch of the chain
loop: a missing agent yields the fixed error response, otherwise the
teammate is invoked with the handoff message.  `invoke agentId message`
abstracts `invokeAgent(...)` (its `.response` field); `agents` is the
configured agent map's key-membership. -/
def fanOutStep (agents : String → Bool) (invoke : String → String → String)
    (fromAgent : String) (m : Mention) : ChainStep :=
  if agents m.teammateId then
    { agentId := m.teammateId
      response := invoke m.teammateId (handoffMessage fromAgent m.message) }
  else
    { agentId := m.teammateId
      response := "Error: agent " ++ m.teammateId ++ " not found" }

/-- The team chain loop of `processMessage` (lines 323-423), with
`invokeAgent` abstracted by the oracle `invoke` and
`extractTeammateMentions(response, selfId, …)` abstracted by
`mentions`.  The JavaScript `while (true)` loop is given explicit fuel;
each iteration invokes the current agent, appends the step, and then
either stops (no mention), continues sequentially (one mention), or
fans out and stops (several mentions, invoked via `Promise.all`, whose
results are collected in mention order). -/
def chainLoop (agents : String → Bool) (invoke : String → String → String)
    (mentions : String → String → List Mention) :
    Nat → String → String → List ChainStep → List ChainStep
  | 0, _, _, steps => steps
  | Nat.succ fuel, currentAgentId, currentMessage, steps =>
    if agents currentAgentId then
      let resp := invoke currentAgentId currentMessage
      let steps' := steps ++ [{ agentId := currentAgentId, response := resp }]
      match mentions resp currentAgentId with
      | [] => steps'
      | [m] =>
        chainLoop agents invoke mentions fuel m.teammateId
          (handoffMessage currentAgentId m.message) steps'
      | m1 :: m2 :: rest =>
        steps' ++ (m1 :: m2 :: rest).map (fanOutStep agents invoke currentAgentId)
    else steps

/-- Response aggregation after the chain loop (lines 426-432): the lone
step's response, or the steps rendered `@id: response` joined by
`\n\n---\n\n` in step order. -/
def aggregateChain (steps : List ChainStep) : String :=
  match steps with
  | [s] => s.response
  | _ => String.intercalate "\n\n---\n\n" (steps.map (fun s => "@" ++ s.agentId ++ ": " ++ s.response))

/-! ## Crash recovery (`recoverOrphanedFiles`, queue processor) -/

/-- `recoverOrphanedFiles()` (queue processor lines 63-72), modelled on
the directory listing: every file whose name ends in `.json` is renamed
from `processing` into `incoming`; other files are not touched.  The
result is `(files moved to incoming, files remaining in processing)`,
assuming every rename succeeds. -/
def recoverOrphanedFiles (processing : List String) : List String × List String :=
  (processing.filter (fun f => strEndsWith f ".json"),
   processing.filter (fun f => !(strEndsWith f ".json")))

/-! ## Outbound file tags (`resolveSandboxPath`, `parseOutboundFiles`) -/

/-- `SandboxPathMapping` from `runner.ts`. -/
structure SandboxPathMapping where
  containerPrefix : String
  hostPrefix : String
deriving DecidableEq, Repr

/-- The prefix test of `resolveSandboxPath`: `trimmed` equals the
container prefix, or starts with the container prefix extended to a
path-separator boundary (`path.sep = '/'`). -/
def mappingMatches (m : SandboxPathMapping) (trimmed : String) : Bool :=
  let pre := if strEndsWith m.containerPrefix "/" then m.containerPrefix
             else m.containerPrefix ++ "/"
  trimmed == m.containerPrefix || strStartsWith trimmed pre

/-- `.replace(/^[\\/]/, '')`: strip one leading `/` or `\`. -/
def stripLeadSep (l : List Char) : List Char :=
  match l with
  | [] => []
  | c :: t => if c = '/' ∨ c = '\\' then t else c :: t

/-- The rewrite of a matching mapping inside `resolveSandboxPath`:
slice off the container prefix, strip one leading separator, and join
onto the host prefix (empty suffix yields the host prefix itself). -/
def rewritePath (m : SandboxPathMapping) (trimmed : String) : String :=
  let suffix := String.mk (stripLeadSep (trimmed.data.drop m.containerPrefix.data.length))
  if suffix = "" then m.hostPrefix else joinPath m.hostPrefix suffix

/-- `resolveSandboxPath(filePath, pathMappings)` (queue processor lines
93-116), with `fs.existsSync` abstracted by the oracle `fsExists`:
trim; reject non-absolute paths; use the path as-is when it exists;
otherwise scan the mappings in order and return the first rewritten
path that exists. -/
def resolveSandboxPath (fsExists : String → Bool) (filePath : String)
    (pathMappings : List SandboxPathMapping) : Option String :=
  let trimmed := jsTrim filePath
  if !isAbsolutePath trimmed then none
  else if fsExists trimmed then some trimmed
  else
    pathMappings.findSome? (fun m =>
      if mappingMatches m trimmed then
        let hostPath := rewritePath m trimmed
        if fsExists hostPath then some hostPath else none
      else none)

/-- The literal `[send_file:` that opens a file tag. -/
def sendFileTagOpen : List Char := "[send_file:".data

/-- Try to match the regex `\[send_file:\s*([^\]]+)\]` at the head of
`l`.  On success return the raw capture (everything between the colon
and the closing bracket; the `\s*` is absorbed into the capture, which
the caller trims) and the remainder after the `]`.  The match fails
when the tag literal is absent, the capture would be empty, or no `]`
follows. -/
def matchTag (l : List Char) : Option (List Char × List Char) :=
  if sendFileTagOpen.isPrefixOf l then
    let after := l.drop sendFileTagOpen.length
    let cap := after.takeWhile (fun c => c ≠ ']')
    match after.dropWhile (fun c => c ≠ ']') with
    | _ :: rest => if cap.isEmpty then none else some (cap, rest)
    | [] => none
  else none

/-- One left-to-right scan of the text for `[send_file: …]` tags,
fuelled to stay structurally recursive: matched tags are removed from
the text and their captures collected in order; other characters are
copied through.  Models both the `exec` loop and the
`replace(fileRefRegex, '')` of `parseOutboundFiles` (the same
non-overlapping matches). -/
def scanTagsF : Nat → List Char → List Char × List (List Char)
  | 0, l => (l, [])
  | Nat.succ fuel, l =>
    match matchTag l with
    | some (cap, rest) =>
      let p := scanTagsF fuel rest
      (p.1, cap :: p.2)
    | none =>
      match l with
      | [] => ([], [])
      | c :: t =>
        let p := scanTagsF fuel t
        (c :: p.1, p.2)

/-- Tag scan of a whole text: `l.length` fuel always suffices because
every step consumes at least one character. -/
def scanTags (l : List Char) : List Char × List (List Char) :=
  scanTagsF l.length l

/-- `files.add(resolved)` on a JavaScript `Set`, which preserves
insertion order: append when not yet present. -/
def insertUnique (l : List String) (x : String) : List String :=
  if x ∈ l then l else l ++ [x]

/-- Result record of `parseOutboundFiles`. -/
structure ParsedOutbound where
  cleanText : String
  files : List String
  missing : List String
deriving DecidableEq, Repr

/-- Processing of one tag capture inside the `while` loop of
`parseOutboundFiles`: trim the capture, resolve it, and either add the
resolved host path to the (deduplicating) file set or push the trimmed
raw path onto `missing`. -/
def parseStep (fsExists : String → Bool) (pathMappings : List SandboxPathMapping)
    (acc : List String × List String) (rawCap : List Char) : List String × List String :=
  let rawPath := jsTrim (String.mk rawCap)
  match resolveSandboxPath fsExists rawPath pathMappings with
  | some resolved => (insertUnique acc.1 resolved, acc.2)
  | none => (acc.1, acc.2 ++ [rawPath])

/-- `parseOutboundFiles(responseText, pathMappings)` (queue processor
lines 118-141): scan all tags, resolve each capture, and return the
tag-stripped trimmed text, the deduplicated resolved files in first
insertion order, and the missing raw paths in match order. -/
def parseOutboundFiles (fsExists : String → Bool) (responseText : String)
    (pathMappings : List SandboxPathMapping) : ParsedOutbound :=
  let scanned := scanTags responseText.data
  let folded := scanned.2.foldl (parseStep fsExists pathMappings) ([], [])
  { cleanText := jsTrim (String.mk scanned.1)
    files := folded.1
    missing := folded.2 }

/-! ## Final response assembly (`processMessage` lines 473-495) -/

/-- The warning block template appended when some tagged paths could
not be resolved. -/
def missingWarningHeader : String :=
  "\n\n[Warning: Some files could not be found for attachment]\n"

/-- Lines 477-480 of the queue processor: when `missing` is nonempty,
append one warning block listing the first three missing paths as
`- <path>` lines, then trim. -/
def appendMissingWarning (cleanText : String) (missing : List String) : String :=
  if missing.length > 0 then
    jsTrim (cleanText ++ missingWarningHeader ++
      String.intercalate "\n" ((missing.take 3).map (fun f => "- " ++ f)))
  else cleanText

/-- Lines 483-485 of the queue processor: responses longer than 4000
characters are cut to their first 3900 characters plus the truncation
marker. -/
def capResponse (s : String) : String :=
  if s.length > 4000 then jsSubstring s 3900 ++ "\n\n[Response truncated...]" else s

/-- The last line of a string: the longest `\n`-free suffix. -/
def lastLine (s : String) : String :=
  String.mk ((s.data.reverse.takeWhile (fun c => c ≠ '\n')).reverse)

/-- The full final-response assembly of `processMessage` (lines
473-495): trim the aggregated response, strip and resolve file tags,
append the missing-files warning, cap the length, and return the
message text together with the resolved attachment list. -/
def assembleOutgoing (fsExists : String → Bool) (pathMappings : List SandboxPathMapping)
    (finalResponse : String) : String × List String :=
  let parsed := parseOutboundFiles fsExists (jsTrim finalResponse) pathMappings
  let withWarning := appendMissingWarning parsed.cleanText parsed.missing
  (capResponse withWarning, parsed.files)

/-! ## Helper lemmas -/

/-- `jsOrNat` with a nonzero default never yields `0`. -/
theorem jsOrNat_ne_zero (x : Option Nat) (d : Nat) (hd : d ≠ 0) : jsOrNat x d ≠ 0 := by
  cases x with
  | none => simpa [jsOrNat] using hd
  | some n =>
    simp only [jsOrNat]
    split
    · exact hd
    · assumption

/-- The Codex fold computes the last matching `text`, defaulting to the
initial accumulator. -/
theorem codex_foldl_eq_getLastD (lines : List (Option CodexLine)) (acc : String) :
    lines.foldl codexUpdate acc = (codexMatchingTexts lines).getLastD acc := by
  induction lines generalizing acc with
  | nil => rfl
  | cons l t ih =>
    cases l with
    | none =>
      simp only [List.foldl_cons, codexUpdate, codexMatchingTexts, List.filterMap_cons]
      exact ih acc
    | some j =>
      by_cases h : (j.type == "item.completed" && j.itemType == "agent_message") = true
      · simp only [List.foldl_cons, codexUpdate, h, if_true]
        have := ih j.text
        simp only [codexMatchingTexts, List.filterMap_cons, h, if_true] at *
        rw [this, List.getLastD_cons]
      · simp only [List.foldl_cons, codexUpdate, h, if_false]
        have := ih acc
        simp only [codexMatchingTexts, List.filterMap_cons, h, if_false] at *
        exact this

/-- `getLastD` of a list ending in `a` is `a`. -/
theorem getLastD_append_singleton {α : Type} (l : List α) (a d : α) :
    (l ++ [a]).getLastD d = a := by
  induction l generalizing d with
  | nil => rfl
  | cons b t ih =>
    rw [List.cons_append, List.getLastD_cons]
    exact ih b

/-! ## Claim theorems -/

/-- C9: the normalized sandbox configuration's `max_attempts` equals the
configured value when it is a nonzero number and `3` otherwise (in
particular a configured `0` is replaced by `3`, so the normalized value
is never `0` and at least one attempt is made); `timeout_seconds`
behaves the same way with default `600`. -/
theorem sandbox_config_max_attempts_normalization
    (s : SettingsSandboxView) (c : SandboxConfigIn) (n : Nat) :
    (s.sandbox = some c → c.max_attempts = some n → n ≠ 0 →
      (getSandboxConfig s).max_attempts = n)
    ∧ (s.sandbox = some c → (c.max_attempts = none ∨ c.max_attempts = some 0) →
      (getSandboxConfig s).max_attempts = 3)
    ∧ (s.sandbox = none → (getSandboxConfig s).max_attempts = 3)
    ∧ (getSandboxConfig s).max_attempts ≠ 0
    ∧ 1 ≤ (getSandboxConfig s).max_attempts
    ∧ (s.sandbox = some c → c.timeout_seconds = some n → n ≠ 0 →
      (getSandboxConfig s).timeout_seconds = n)
    ∧ (s.sandbox = some c → (c.timeout_seconds = none ∨ c.timeout_seconds = some 0) →
      (getSandboxConfig s).timeout_seconds = 600) := by
  refine ⟨?_, ?_, ?_, ?_, ?_, ?_, ?_⟩
  · intro hs hc hn
    simp [getSandboxConfig, hs, hc, jsOrNat, hn]
  · intro hs hc
    rcases hc with hc | hc <;> simp [getSandboxConfig, hs, hc, jsOrNat, DEFAULT_SANDBOX]
  · intro hs
    simp [getSandboxConfig, hs, jsOrNat, DEFAULT_SANDBOX]
  · simp only [getSandboxConfig]
    exact jsOrNat_ne_zero _ 3 (by decide)
  · have h : (getSandboxConfig s).max_attempts ≠ 0 := by
      simp only [getSandboxConfig]
      exact jsOrNat_ne_zero _ 3 (by decide)
    omega
  · intro hs hc hn
    simp [getSandboxConfig, hs, hc, jsOrNat, hn]
  · intro hs hc
    rcases hc with hc | hc <;> simp [getSandboxConfig, hs, hc, jsOrNat, DEFAULT_SANDBOX]

/-- C9 witness: a configured `max_attempts` of `0` normalizes to `3`. -/
theorem sandbox_config_max_attempts_normalization_witness :
    (getSandboxConfig ⟨some { max_attempts := some 0, timeout_seconds := some 0 }⟩).max_attempts = 3
    ∧ (getSandboxConfig ⟨some { max_attempts := some 0, timeout_seconds := some 0 }⟩).timeout_seconds = 600 := by
  constructor
  · exact (sandbox_config_max_attempts_normalization
      ⟨some { max_attempts := some 0, timeout_seconds := some 0 }⟩
      { max_attempts := some 0, timeout_seconds := some 0 } 1).2.1 rfl (Or.inr rfl)
  · exact (sandbox_config_max_attempts_normalization
      ⟨some { max_attempts := some 0, timeout_seconds := some 0 }⟩
      { max_attempts := some 0, timeout_seconds := some 0 } 1).2.2.2.2.2.2 rfl (Or.inr rfl)

/-- C8: `parseCodexResponse` yields the fixed fallback string both when
no NDJSON line matches (`type = item.completed`, `item.type =
agent_message`) and when the last matching line's `text` is empty, even
if earlier matching lines carried non-empty text. -/
theorem codex_fallback_on_empty_last_match (lines : List (Option CodexLine)) :
    (codexMatchingTexts lines = [] →
      parseCodexResponse lines = "Sorry, I could not generate a response from Codex.")
    ∧ (∀ ts : List String, codexMatchingTexts lines = ts ++ [""] →
      parseCodexResponse lines = "Sorry, I could not generate a response from Codex.") := by
  constructor
  · intro h
    simp [parseCodexResponse, codex_foldl_eq_getLastD, h]
  · intro ts h
    have : lines.foldl codexUpdate "" = "" := by
      rw [codex_foldl_eq_getLastD, h, getLastD_append_singleton]
    simp [parseCodexResponse, this]

/-- C8 witness: two matching lines, the first with text `"hello"`, the
last with empty text: the fallback is returned. -/
theorem codex_fallback_on_empty_last_match_witness :
    parseCodexResponse
      [some ⟨"item.completed", "agent_message", "hello"⟩,
       some ⟨"item.completed", "agent_message", ""⟩] =
    "Sorry, I could not generate a response from Codex." :=
  (codex_fallback_on_empty_last_match
    [some ⟨"item.completed", "agent_message", "hello"⟩,
     some ⟨"item.completed", "agent_message", ""⟩]).2 ["hello"] (by decide)

/-- `classifyContainerFailure` is terminal exactly when the lowercased
stderr contains one of the seven terminal signatures. -/
theorem classify_terminal_iff (stderr : String) :
    classifyContainerFailure stderr = ErrClass.terminal ↔
      ∃ p ∈ terminalStderrPatterns, strIncludes (lowerStr stderr) p = true := by
  simp only [classifyContainerFailure]
  split
  · rename_i h
    simp only [Bool.or_eq_true] at h
    simp only [terminalStderrPatterns, List.mem_cons, List.not_mem_nil, or_false, true_iff]
    rcases h with ((((((h | h) | h) | h) | h) | h) | h)
    · exact ⟨"unknown flag", by tauto⟩
    · exact ⟨"no such file or directory", by tauto⟩
    · exact ⟨"not found", by tauto⟩
    · exact ⟨"invalid argument", by tauto⟩
    · exact ⟨"for \"--mount\" flag", by tauto⟩
    · exact ⟨"invalid reference format", by tauto⟩
    · exact ⟨"permission denied", by tauto⟩
  · rename_i h
    simp only [Bool.or_eq_true, not_or] at h
    constructor
    · intro hc
      exact absurd hc (by simp)
    · intro ⟨p, hp, hinc⟩
      simp only [terminalStderrPatterns, List.mem_cons, List.not_mem_nil, or_false] at hp
      rcases hp with rfl | rfl | rfl | rfl | rfl | rfl | rfl <;> tauto

/-- C6: a container invocation that exits non-zero is classified
terminal iff the lowercased stderr contains one of the seven terminal
signatures, and transient otherwise; a timeout is always transient. -/
theorem container_failure_classification_iff (mode : SandboxMode) (r : ProcessResult) :
    (r.timedOut = false → r.code ≠ 0 →
      ∃ e, containerFinish mode r = Except.error e ∧
        (e.classification = ErrClass.terminal ↔
          ∃ p ∈ terminalStderrPatterns, strIncludes (lowerStr r.stderr) p = true))
    ∧ (r.timedOut = true →
      ∃ e, containerFinish mode r = Except.error e ∧ e.classification = ErrClass.transient) := by
  constructor
  · intro ht hc
    have hEq : containerFinish mode r = Except.error
        { classification := classifyContainerFailure r.stderr
          userMessage :=
            if classifyContainerFailure r.stderr = ErrClass.terminal then
              "Sandbox runtime error in " ++ mode.str ++ " mode. Run \"tinyclaw sandbox doctor\"."
            else
              "Sandbox execution failed due to a transient runtime issue. Please retry." } := by
      simp [containerFinish, ht, hc]
    exact ⟨_, hEq, by simpa using classify_terminal_iff r.stderr⟩
  · intro ht
    exact ⟨{ classification := ErrClass.transient,
             userMessage := "Sandbox execution timed out. Please retry." },
           by simp [containerFinish, ht], rfl⟩

/-- C6 witness: exit code 1 with stderr `"Invalid Reference Format"` is
classified terminal via the signature list. -/
theorem container_failure_classification_iff_witness :
    ∃ e, containerFinish SandboxMode.docker
        { stdout := "", stderr := "Invalid Reference Format", code := 1, timedOut := false } =
        Except.error e ∧
      (e.classification = ErrClass.terminal ↔
        ∃ p ∈ terminalStderrPatterns,
          strIncludes (lowerStr "Invalid Reference Format") p = true) :=
  (container_failure_classification_iff SandboxMode.docker
    { stdout := "", stderr := "Invalid Reference Format", code := 1, timedOut := false }).1
    rfl (by decide)

/-- C1: when processing a parsed message fails while its processing file
still exists, a transient error with `attempt + 1 < max_attempts` leads
to a requeue with the attempt counter incremented by one; a terminal
error or exhausted retries lead to a dead-letter record
`{failedAt, errorClass, errorMessage, attempt, maxAttempts, payload}`
and deletion of the processing file. -/
theorem requeue_or_deadletter_on_failure (errorClass : ErrClass) (safeError failedAt : String)
    (nowMs maxAttempts : Nat) (md : MessageData) :
    (errorClass = ErrClass.transient → md.attempt.getD 0 + 1 < maxAttempts →
      handleProcessingFailure errorClass safeError failedAt nowMs maxAttempts (some md) true =
        FailureOutcome.requeue
          { md with
            attempt := some (md.attempt.getD 0 + 1)
            errorClass := some ErrClass.transient
            firstSeenAt := some (jsOrNat md.firstSeenAt nowMs) })
    ∧ (errorClass = ErrClass.terminal ∨ maxAttempts ≤ md.attempt.getD 0 + 1 →
      handleProcessingFailure errorClass safeError failedAt nowMs maxAttempts (some md) true =
        FailureOutcome.deadLetter
          { failedAt := failedAt
            errorClass := errorClass
            errorMessage := safeError
            attempt := md.attempt.getD 0 + 1
            maxAttempts := maxAttempts
            payload := some md }
          true) := by
  constructor
  · intro hclass hattempt
    subst hclass
    simp only [handleProcessingFailure]
    rw [if_pos]
    exact ⟨by simp, by omega, trivial⟩
  · intro h
    simp only [handleProcessingFailure]
    rcases h with hclass | hmax
    · subst hclass
      rw [if_neg (fun hcond => hcond.1 rfl)]
      simp
    · rw [if_neg (fun hcond => hcond.2.1 hmax)]
      rcases errorClass with _ | _ <;> simp

/-- C1 witness: a transient first failure with `max_attempts = 3` is
requeued with `attempt = 1`; the same message with a terminal error is
dead-lettered with the full record and the processing file deleted. -/
theorem requeue_or_deadletter_on_failure_witness :
    handleProcessingFailure ErrClass.transient "boom" "t0" 5 3
        (some { channel := "telegram", sender := "u", message := "hi",
                timestamp := 1, messageId := "m1" }) true =
      FailureOutcome.requeue
        { channel := "telegram", sender := "u", message := "hi",
          timestamp := 1, messageId := "m1",
          attempt := some 1, errorClass := some ErrClass.transient,
          firstSeenAt := some 5 }
    ∧ handleProcessingFailure ErrClass.terminal "boom" "t0" 5 3
        (some { channel := "telegram", sender := "u", message := "hi",
                timestamp := 1, messageId := "m1" }) true =
      FailureOutcome.deadLetter
        { failedAt := "t0", errorClass := ErrClass.terminal, errorMessage := "boom",
          attempt := 1, maxAttempts := 3,
          payload := some { channel := "telegram", sender := "u", message := "hi",
                            timestamp := 1, messageId := "m1" } }
        true := by
  constructor
  · exact (requeue_or_deadletter_on_failure ErrClass.transient "boom" "t0" 5 3
      { channel := "telegram", sender := "u", message := "hi",
        timestamp := 1, messageId := "m1" }).1 rfl (by decide)
  · exact (requeue_or_deadletter_on_failure ErrClass.terminal "boom" "t0" 5 3
      { channel := "telegram", sender := "u", message := "hi",
        timestamp := 1, messageId := "m1" }).2 (Or.inl rfl)

/-- C2: in a team chain, a response with exactly one teammate mention
continues the chain with that teammate and the handoff message
`"[Message from teammate @<prev>]:\n<mention.message>"`; a response with
several mentions invokes all of them (via `Promise.all`), appends their
results in mention order, and stops the chain regardless of remaining
fuel; the final response is the lone step's response for a one-step
chain and otherwise the steps rendered `@id: response` joined by
`"\n\n---\n\n"` in step order. -/
theorem team_chain_handoff_fanout_aggregation (agents : String → Bool)
    (invoke : String → String → String) (mentions : String → String → List Mention)
    (fuel : Nat) (cur msg : String) (steps : List ChainStep) :
    (agents cur = true → ∀ m : Mention, mentions (invoke cur msg) cur = [m] →
      chainLoop agents invoke mentions (fuel + 1) cur msg steps =
        chainLoop agents invoke mentions fuel m.teammateId
          ("[Message from teammate @" ++ cur ++ "]:\n" ++ m.message)
          (steps ++ [{ agentId := cur, response := invoke cur msg }]))
    ∧ (agents cur = true → ∀ (m1 m2 : Mention) (rest : List Mention),
        mentions (invoke cur msg) cur = m1 :: m2 :: rest →
      chainLoop agents invoke mentions (fuel + 1) cur msg steps =
        (steps ++ [{ agentId := cur, response := invoke cur msg }]) ++
          (m1 :: m2 :: rest).map (fanOutStep agents invoke cur))
    ∧ (∀ s : ChainStep, aggregateChain [s] = s.response)
    ∧ (∀ sl : List ChainStep, sl.length ≠ 1 →
        aggregateChain sl =
          String.intercalate "\n\n---\n\n"
            (sl.map (fun s => "@" ++ s.agentId ++ ": " ++ s.response))) := by
  refine ⟨?_, ?_, ?_, ?_⟩
  · intro hag m hm
    simp only [chainLoop, hag, if_true, hm, handoffMessage]
  · intro hag m1 m2 rest hm
    simp only [chainLoop, hag, if_true, hm]
  · intro s
    rfl
  · intro sl h
    match sl with
    | [] => rfl
    | [s] => exact absurd rfl h
    | a :: b :: t => rfl

/-- C2 witness: a two-agent chain where `lead` mentions `@coder` once:
one unfolding performs the handoff with the formatted message, and the
aggregation renders the two steps joined by the separator. -/
theorem team_chain_handoff_fanout_aggregation_witness :
    chainLoop (fun _ => true)
        (fun id _ => if id == "lead" then "@coder implement X" else "done")
        (fun resp _ => if resp == "@coder implement X" then [⟨"coder", "implement X"⟩] else [])
        2 "lead" "plan this" [] =
      chainLoop (fun _ => true)
        (fun id _ => if id == "lead" then "@coder implement X" else "done")
        (fun resp _ => if resp == "@coder implement X" then [⟨"coder", "implement X"⟩] else [])
        1 "coder" ("[Message from teammate @" ++ "lead" ++ "]:\n" ++ "implement X")
        [{ agentId := "lead", response := "@coder implement X" }]
    ∧ aggregateChain [⟨"lead", "@coder implement X"⟩, ⟨"coder", "done"⟩] =
        "@lead: @coder implement X\n\n---\n\n@coder: done" := by
  constructor
  · have h := (team_chain_handoff_fanout_aggregation (fun _ => true)
      (fun id _ => if id == "lead" then "@coder implement X" else "done")
      (fun resp _ => if resp == "@coder implement X" then [⟨"coder", "implement X"⟩] else [])
      1 "lead" "plan this" []).1 rfl ⟨"coder", "implement X"⟩ (by decide)
    simpa using h
  · have h := (team_chain_handoff_fanout_aggregation (fun _ => true)
      (fun id _ => if id == "lead" then "@coder implement X" else "done")
      (fun resp _ => if resp == "@coder implement X" then [⟨"coder", "implement X"⟩] else [])
      1 "lead" "plan this" []).2.2.2 [⟨"lead", "@coder implement X"⟩, ⟨"coder", "done"⟩]
      (by decide)
    rw [h]
    decide

/-- `takeWhile` of a list all of whose elements satisfy `p`, followed by
an element refuting `p`, is that list. -/
theorem takeWhile_append_stop {α : Type} {p : α → Bool} (l₁ : List α) (c : α) (l₂ : List α)
    (h₁ : ∀ a ∈ l₁, p a = true) (h₂ : p c = false) :
    (l₁ ++ c :: l₂).takeWhile p = l₁ := by
  induction l₁ with
  | nil => simp [List.takeWhile_cons, h₂]
  | cons a t ih =>
    have ha := h₁ a (by simp)
    simp only [List.cons_append, List.takeWhile_cons, ha, if_true, List.cons.injEq]
    exact ⟨trivial, ih (fun b hb => h₁ b (by simp [hb]))⟩

/-- `takeWhile` of a list all of whose elements satisfy `p` is the whole
list. -/
theorem takeWhile_all {α : Type} {p : α → Bool} (l : List α) (h : ∀ a ∈ l, p a = true) :
    l.takeWhile p = l := by
  induction l with
  | nil => rfl
  | cons a t ih =>
    have ha := h a (by simp)
    simp only [List.takeWhile_cons, ha, if_true, List.cons.injEq]
    exact ⟨trivial, ih (fun b hb => h b (by simp [hb]))⟩

/-- The last-line scan on character lists: a text followed by two
newlines and a newline-free tail has that tail as its last line. -/
theorem lastLine_concat_data (x m : List Char)
    (hno : ∀ a ∈ m, (decide (a ≠ '\n')) = true) :
    ((x ++ '\n' :: '\n' :: m).reverse.takeWhile (fun c => decide (c ≠ '\n'))).reverse = m := by
  rw [List.reverse_append]
  have h2 : ('\n' :: '\n' :: m).reverse = m.reverse ++ ['\n', '\n'] := by simp
  rw [h2, List.append_assoc]
  rw [show (['\n', '\n'] ++ x.reverse : List Char) = '\n' :: '\n' :: x.reverse from rfl]
  rw [takeWhile_append_stop _ '\n' _
    (fun a ha => hno a (by simpa using ha)) (by decide)]
  exact List.reverse_reverse m

/-- Appending the truncation marker makes `[Response truncated...]` the
last line, whatever the prefix. -/
theorem lastLine_append_marker (x : String) :
    lastLine (x ++ "\n\n[Response truncated...]") = "[Response truncated...]" := by
  have hdecomp : ("\n\n[Response truncated...]" : String).data =
      '\n' :: '\n' :: ("[Response truncated...]" : String).data := by decide
  have hdata : (x ++ "\n\n[Response truncated...]").data =
      x.data ++ ('\n' :: '\n' :: ("[Response truncated...]" : String).data) := by
    rw [String.data_append, hdecomp]
  unfold lastLine
  rw [hdata, lastLine_concat_data x.data _ (by decide)]

/-- C3 (amended): every capped message has length at most 4000, and
whenever the pre-cap response exceeds 4000 characters the written
message is its first 3900 characters plus the marker, has length 3925,
and its last line is `[Response truncated...]`.  (The original claim's
threshold of 3900 does not hold: an untruncated response of length
3901-4000 is written unchanged, see the counterexample.) -/
theorem capped_response_length_invariant (s : String) :
    (capResponse s).length ≤ 4000
    ∧ (s.length > 4000 →
        (capResponse s).length = 3925 ∧
        lastLine (capResponse s) = "[Response truncated...]") := by
  have hcaplen : (jsSubstring s 3900 ++ "\n\n[Response truncated...]").length =
      (s.data.take 3900).length + 25 := by
    show (jsSubstring s 3900 ++ "\n\n[Response truncated...]").data.length = _
    rw [String.data_append]
    simp [jsSubstring]
  have hsdata : s.data.length = s.length := rfl
  refine ⟨?_, ?_⟩
  · simp only [capResponse]
    split
    · rename_i h
      rw [hcaplen, List.length_take]
      omega
    · omega
  · intro h
    simp only [capResponse, if_pos h]
    refine ⟨?_, lastLine_append_marker _⟩
    rw [hcaplen, List.length_take]
    omega

/-- C3 witness: a response of 4001 characters is truncated to length
3925 and ends with the marker line. -/
theorem capped_response_length_invariant_witness :
    (capResponse (String.mk (List.replicate 4001 'a'))).length = 3925 ∧
    lastLine (capResponse (String.mk (List.replicate 4001 'a'))) = "[Response truncated...]" := by
  have hlen : (String.mk (List.replicate 4001 'a')).length = 4001 := by
    show (List.replicate 4001 'a').length = 4001
    rw [List.length_replicate]
  exact (capped_response_length_invariant (String.mk (List.replicate 4001 'a'))).2
    (by rw [hlen]; omega)

/-- C3 counterexample: an untruncated final response of 3950 characters
is written unchanged, so its message exceeds 3900 characters while its
last line is not `[Response truncated...]` — refuting the claim that
every outgoing message longer than 3900 characters ends in the marker. -/
theorem outgoing_marker_threshold_counterexample :
    (capResponse (String.mk (List.replicate 3950 'a'))).length > 3900 ∧
    lastLine (capResponse (String.mk (List.replicate 3950 'a'))) ≠ "[Response truncated...]" := by
  have hlen : (String.mk (List.replicate 3950 'a')).length = 3950 := by
    show (List.replicate 3950 'a').length = 3950
    rw [List.length_replicate]
  have hid : capResponse (String.mk (List.replicate 3950 'a')) =
      String.mk (List.replicate 3950 'a') := by
    simp only [capResponse, hlen]
    norm_num
  have hlast : lastLine (String.mk (List.replicate 3950 'a')) =
      String.mk (List.replicate 3950 'a') := by
    unfold lastLine
    rw [takeWhile_all _ ?hall, List.reverse_reverse]
    case hall =>
      intro a ha
      rw [List.mem_reverse] at ha
      have := List.eq_of_mem_replicate ha
      subst this
      decide
  refine ⟨by rw [hid, hlen]; omega, ?_⟩
  rw [hid, hlast]
  intro heq
  have hl := congrArg String.length heq
  rw [hlen] at hl
  have : ("[Response truncated...]" : String).length = 23 := rfl
  omega

/-- C4 (amended): `writeOutgoingResponse` and `writeDeadLetter` each
perform exactly one direct `writeFileSync` to the final pathname; no
temporary path and no rename is involved in either write. -/
theorem queue_writes_single_direct_write
    (outgoingDir channel sender message originalMessage messageId : String)
    (agentId : Option String) (files : Option (List String)) (nowMs : Nat)
    (deadLetterDir processingBase : String) (payload : Option MessageData)
    (errorClass : ErrClass) (errorMessage : String) (attempt maxAttempts : Nat)
    (failedAt : String) :
    (∃ p r, writeOutgoingResponseOps outgoingDir channel sender message originalMessage
        messageId agentId files nowMs = [FsOp.write p (QueueFileContent.response r)])
    ∧ (∃ p d, writeDeadLetterOps deadLetterDir processingBase payload errorClass errorMessage
        attempt maxAttempts failedAt nowMs =
        [FsOp.write p (QueueFileContent.deadLetterRec d)]) :=
  ⟨⟨_, _, rfl⟩, ⟨_, _, rfl⟩⟩

/-- C4 counterexample: a concrete outgoing response write is a single
direct write, not a write to a temporary path followed by a rename into
place — refuting the claim that every queue write uses temp-then-rename. -/
theorem outgoing_write_not_atomic_counterexample :
    ¬ ∃ tmp c dst, tmp ≠ dst ∧
      writeOutgoingResponseOps "/q/outgoing" "telegram" "u" "hello" "hello" "m1" none none 5 =
        [FsOp.write tmp c, FsOp.rename tmp dst] := by
  intro ⟨tmp, c, dst, hne, heq⟩
  have hlen := congrArg List.length heq
  simp [writeOutgoingResponseOps] at hlen

/-- C5 (amended): on startup every file in `processing` whose name ends
in `.json` is moved back to `incoming`, and afterwards `processing`
contains no `.json` file; files with other extensions are not moved.
(The original claim's "every file" and "empty afterwards" fail for
non-`.json` files, see the counterexample.) -/
theorem recover_moves_all_json_files (processing : List String) :
    (∀ f ∈ processing, strEndsWith f ".json" = true →
      f ∈ (recoverOrphanedFiles processing).1)
    ∧ (∀ f ∈ (recoverOrphanedFiles processing).2, strEndsWith f ".json" = false)
    ∧ (∀ f ∈ (recoverOrphanedFiles processing).1, strEndsWith f ".json" = true) := by
  refine ⟨?_, ?_, ?_⟩
  · intro f hf hjson
    simp [recoverOrphanedFiles, List.mem_filter, hf, hjson]
  · intro f hf
    simp only [recoverOrphanedFiles, List.mem_filter, Bool.not_eq_true'] at hf
    exact hf.2
  · intro f hf
    simp only [recoverOrphanedFiles, List.mem_filter] at hf
    exact hf.2

/-- C5 witness: with `processing = ["a.json", "stray.txt"]`, the JSON
file is moved and the remaining file is not a `.json` file. -/
theorem recover_moves_all_json_files_witness :
    "a.json" ∈ (recoverOrphanedFiles ["a.json", "stray.txt"]).1 ∧
    ∀ f ∈ (recoverOrphanedFiles ["a.json", "stray.txt"]).2, strEndsWith f ".json" = false :=
  ⟨(recover_moves_all_json_files ["a.json", "stray.txt"]).1 "a.json" (by decide) (by decide),
   (recover_moves_all_json_files ["a.json", "stray.txt"]).2.1⟩

/-- C5 counterexample: a file named `stray.txt` in `processing` is not
moved to `incoming` and remains in `processing`, so the processing
directory is not empty when the loop starts — refuting the claim for
files that do not end in `.json`. -/
theorem recover_nonjson_counterexample :
    (recoverOrphanedFiles ["stray.txt"]).1 = [] ∧
    (recoverOrphanedFiles ["stray.txt"]).2 = ["stray.txt"] := by
  decide

/-- The head of a non-trivial `dropWhile` result refutes the predicate. -/
theorem dropWhile_head_false {α : Type} {p : α → Bool} {l : List α} {x : α} {xs : List α}
    (h : l.dropWhile p = x :: xs) : p x = false := by
  induction l with
  | nil => simp at h
  | cons a t ih =>
    rw [List.dropWhile_cons] at h
    split at h
    · exact ih h
    · rename_i ha
      cases h
      simpa using ha

/-- `dropWhile` passes over a final element that refutes the predicate. -/
theorem dropWhile_append_singleton {α : Type} {p : α → Bool} (u : List α) (x : α)
    (hx : p x = false) : (u ++ [x]).dropWhile p = u.dropWhile p ++ [x] := by
  induction u with
  | nil => simp [List.dropWhile_cons, hx]
  | cons a t ih =>
    rw [List.cons_append, List.dropWhile_cons, List.dropWhile_cons]
    split
    · exact ih
    · rfl

/-- `dropWhile` is idempotent. -/
theorem dropWhile_idem {α : Type} {p : α → Bool} (l : List α) :
    (l.dropWhile p).dropWhile p = l.dropWhile p := by
  induction l with
  | nil => rfl
  | cons a t ih =>
    rw [List.dropWhile_cons]
    split
    · exact ih
    · rename_i ha
      rw [List.dropWhile_cons, if_neg ha]

/-- Character-list form of `trim` applied twice equals `trim` once. -/
theorem trim_chars_idem (l : List Char) :
    (((((l.dropWhile Char.isWhitespace).reverse.dropWhile
            Char.isWhitespace).reverse.dropWhile Char.isWhitespace).reverse.dropWhile
        Char.isWhitespace).reverse) =
    ((l.dropWhile Char.isWhitespace).reverse.dropWhile Char.isWhitespace).reverse := by
  cases h : l.dropWhile Char.isWhitespace with
  | nil => rfl
  | cons x xs =>
    have hx : Char.isWhitespace x = false := dropWhile_head_false h
    have e1 : List.dropWhile Char.isWhitespace ((x :: xs).reverse) =
        List.dropWhile Char.isWhitespace xs.reverse ++ [x] := by
      rw [List.reverse_cons]
      exact dropWhile_append_singleton _ _ hx
    rw [e1, List.reverse_append]
    simp only [List.reverse_cons, List.reverse_nil, List.nil_append, List.singleton_append]
    rw [List.dropWhile_cons, if_neg (by simp [hx]), List.reverse_cons,
      dropWhile_append_singleton _ _ hx, List.reverse_reverse, dropWhile_idem,
      List.reverse_append]
    simp

/-- JavaScript `trim()` is idempotent. -/
theorem jsTrim_idem (s : String) : jsTrim (jsTrim s) = jsTrim s :=
  congrArg String.mk (trim_chars_idem s.data)

/-- `findSome?` succeeds when some element of the list succeeds. -/
theorem findSome?_isSome_of_mem {α β : Type} (f : α → Option β) {l : List α} {a : α}
    (ha : a ∈ l) (hf : (f a).isSome = true) : (l.findSome? f).isSome = true := by
  induction l with
  | nil => simp at ha
  | cons b t ih =>
    rw [List.findSome?_cons]
    cases hb : f b with
    | some v => rfl
    | none =>
      rcases List.mem_cons.mp ha with rfl | hat
      · rw [hb] at hf
        simp at hf
      · exact ih hat

/-- A successful `findSome?` is produced by some member of the list. -/
theorem exists_mem_of_findSome?_eq_some {α β : Type} (f : α → Option β) {l : List α} {b : β}
    (h : l.findSome? f = some b) : ∃ a ∈ l, f a = some b := by
  induction l with
  | nil => simp at h
  | cons c t ih =>
    rw [List.findSome?_cons] at h
    cases hc : f c with
    | some v =>
      rw [hc] at h
      cases h
      exact ⟨c, by simp, hc⟩
    | none =>
      rw [hc] at h
      obtain ⟨a, hat, hfa⟩ := ih h
      exact ⟨a, by simp [hat], hfa⟩

/-- A tag scan that finds no captures copies the text through untouched. -/
theorem scanTagsF_clean_of_no_caps (fuel : Nat) :
    ∀ l : List Char, (scanTagsF fuel l).2 = [] → (scanTagsF fuel l).1 = l := by
  induction fuel with
  | zero => intro l _; rfl
  | succ fuel ih =>
    intro l hcaps
    cases hm : matchTag l with
    | some pr =>
      simp only [scanTagsF, hm] at hcaps
      simp at hcaps
    | none =>
      cases l with
      | nil => rfl
      | cons c t =>
        simp only [scanTagsF, hm] at hcaps ⊢
        rw [ih t hcaps]

/-- A freshly inserted element is in the set. -/
theorem mem_insertUnique_self (l : List String) (x : String) : x ∈ insertUnique l x := by
  simp only [insertUnique]
  split
  · assumption
  · simp

/-- Insertion preserves membership. -/
theorem mem_insertUnique_of_mem {l : List String} {y : String} (x : String) (h : y ∈ l) :
    y ∈ insertUnique l x := by
  simp only [insertUnique]
  split
  · exact h
  · simp [h]

/-- Insertion preserves `Nodup`. -/
theorem insertUnique_nodup {l : List String} (x : String) (h : l.Nodup) :
    (insertUnique l x).Nodup := by
  simp only [insertUnique]
  split
  · exact h
  · rename_i hx
    simp [List.nodup_append, h, hx]

/-- The tag fold preserves `Nodup` of the file set. -/
theorem foldl_parseStep_nodup (fsExists : String → Bool) (maps : List SandboxPathMapping)
    (caps : List (List Char)) :
    ∀ acc : List String × List String, acc.1.Nodup →
      (caps.foldl (parseStep fsExists maps) acc).1.Nodup := by
  induction caps with
  | nil => intro acc h; exact h
  | cons cap t ih =>
    intro acc h
    rw [List.foldl_cons]
    apply ih
    simp only [parseStep]
    cases hres : resolveSandboxPath fsExists (jsTrim (String.mk cap)) maps with
    | some r => exact insertUnique_nodup r h
    | none => exact h

/-- The tag fold only grows the file set. -/
theorem foldl_parseStep_files_mono (fsExists : String → Bool) (maps : List SandboxPathMapping)
    (caps : List (List Char)) :
    ∀ (acc : List String × List String) (x : String), x ∈ acc.1 →
      x ∈ (caps.foldl (parseStep fsExists maps) acc).1 := by
  induction caps with
  | nil => intro acc x h; exact h
  | cons cap t ih =>
    intro acc x h
    rw [List.foldl_cons]
    apply ih
    simp only [parseStep]
    cases hres : resolveSandboxPath fsExists (jsTrim (String.mk cap)) maps with
    | some r => exact mem_insertUnique_of_mem r h
    | none => exact h

/-- The tag fold only grows the missing list. -/
theorem foldl_parseStep_missing_mono (fsExists : String → Bool) (maps : List SandboxPathMapping)
    (caps : List (List Char)) :
    ∀ (acc : List String × List String) (x : String), x ∈ acc.2 →
      x ∈ (caps.foldl (parseStep fsExists maps) acc).2 := by
  induction caps with
  | nil => intro acc x h; exact h
  | cons cap t ih =>
    intro acc x h
    rw [List.foldl_cons]
    apply ih
    simp only [parseStep]
    cases hres : resolveSandboxPath fsExists (jsTrim (String.mk cap)) maps with
    | some r => exact h
    | none => simp [h]

/-- A capture that resolves contributes its host path to the file set. -/
theorem foldl_parseStep_resolved (fsExists : String → Bool) (maps : List SandboxPathMapping)
    (caps : List (List Char)) :
    ∀ (acc : List String × List String) (cap : List Char) (r : String), cap ∈ caps →
      resolveSandboxPath fsExists (jsTrim (String.mk cap)) maps = some r →
      r ∈ (caps.foldl (parseStep fsExists maps) acc).1 := by
  induction caps with
  | nil => intro acc cap r h; simp at h
  | cons c t ih =>
    intro acc cap r hmem hres
    rw [List.foldl_cons]
    rcases List.mem_cons.mp hmem with rfl | hmem'
    · apply foldl_parseStep_files_mono
      simp only [parseStep, hres]
      exact mem_insertUnique_self _ _
    · exact ih _ cap r hmem' hres

/-- A capture that does not resolve contributes its trimmed raw path to
the missing list. -/
theorem foldl_parseStep_unresolved (fsExists : String → Bool) (maps : List SandboxPathMapping)
    (caps : List (List Char)) :
    ∀ (acc : List String × List String) (cap : List Char), cap ∈ caps →
      resolveSandboxPath fsExists (jsTrim (String.mk cap)) maps = none →
      jsTrim (String.mk cap) ∈ (caps.foldl (parseStep fsExists maps) acc).2 := by
  induction caps with
  | nil => intro acc cap h; simp at h
  | cons c t ih =>
    intro acc cap hmem hres
    rw [List.foldl_cons]
    rcases List.mem_cons.mp hmem with rfl | hmem'
    · apply foldl_parseStep_missing_mono
      simp only [parseStep, hres]
      simp
    · exact ih _ cap hmem' hres

/-- C7: outbound `[send_file: …]` handling — a trimmed tag path that
exists on the host is used as-is; otherwise any mapping whose container
prefix matches at a separator boundary rewrites it to an existing host
path and resolution succeeds through some such mapping; resolved paths
are deduplicated into `files`; resolved and unresolved captures land in
`files` resp. `missing`; a text without tags is passed through with no
files and no missing entries; and the single appended warning lists at
most three missing paths. -/
theorem outbound_file_resolution_spec (fsExists : String → Bool)
    (maps : List SandboxPathMapping) (p text : String) (m : SandboxPathMapping) :
    (isAbsolutePath (jsTrim p) = true → fsExists (jsTrim p) = true →
      resolveSandboxPath fsExists p maps = some (jsTrim p))
    ∧ (isAbsolutePath (jsTrim p) = true → fsExists (jsTrim p) = false →
        m ∈ maps → mappingMatches m (jsTrim p) = true →
        fsExists (rewritePath m (jsTrim p)) = true →
      ∃ h, resolveSandboxPath fsExists p maps = some h ∧ fsExists h = true ∧
        ∃ m' ∈ maps, mappingMatches m' (jsTrim p) = true ∧ h = rewritePath m' (jsTrim p))
    ∧ (parseOutboundFiles fsExists text maps).files.Nodup
    ∧ (∀ cap ∈ (scanTags text.data).2,
        (∀ r, resolveSandboxPath fsExists (jsTrim (String.mk cap)) maps = some r →
          r ∈ (parseOutboundFiles fsExists text maps).files)
        ∧ (resolveSandboxPath fsExists (jsTrim (String.mk cap)) maps = none →
          jsTrim (String.mk cap) ∈ (parseOutboundFiles fsExists text maps).missing))
    ∧ ((scanTags text.data).2 = [] →
        (parseOutboundFiles fsExists text maps).cleanText = jsTrim text ∧
        (parseOutboundFiles fsExists text maps).files = [] ∧
        (parseOutboundFiles fsExists text maps).missing = [])
    ∧ (∀ (clean : String) (missing : List String), missing ≠ [] →
        appendMissingWarning clean missing =
          jsTrim (clean ++ missingWarningHeader ++
            String.intercalate "\n" ((missing.take 3).map (fun f => "- " ++ f))) ∧
        (missing.take 3).length ≤ 3) := by
  refine ⟨?_, ?_, ?_, ?_, ?_, ?_⟩
  · intro habs hfs
    simp [resolveSandboxPath, habs, hfs]
  · intro habs hfs hm hmatch hex
    have hfm : ((fun mp =>
        if mappingMatches mp (jsTrim p) then
          if fsExists (rewritePath mp (jsTrim p)) then some (rewritePath mp (jsTrim p)) else none
        else none) m).isSome = true := by
      simp [hmatch, hex]
    have hsome := findSome?_isSome_of_mem
      (fun mp =>
        if mappingMatches mp (jsTrim p) then
          if fsExists (rewritePath mp (jsTrim p)) then some (rewritePath mp (jsTrim p)) else none
        else none) hm hfm
    obtain ⟨h, hfind⟩ := Option.isSome_iff_exists.mp hsome
    obtain ⟨m', hm', hfm'⟩ := exists_mem_of_findSome?_eq_some _ hfind
    have hres : resolveSandboxPath fsExists p maps = some h := by
      simp only [resolveSandboxPath, habs, Bool.not_true, Bool.false_eq_true, if_false, hfs,
        if_false]
      exact hfind
    by_cases hmm : mappingMatches m' (jsTrim p) = true
    · rw [if_pos hmm] at hfm'
      by_cases hee : fsExists (rewritePath m' (jsTrim p)) = true
      · rw [if_pos hee] at hfm'
        cases hfm'
        exact ⟨_, hres, hee, m', hm', hmm, rfl⟩
      · rw [if_neg hee] at hfm'
        cases hfm'
    · rw [if_neg hmm] at hfm'
      cases hfm'
  · simp only [parseOutboundFiles]
    exact foldl_parseStep_nodup fsExists maps _ _ (by simp)
  · intro cap hcap
    constructor
    · intro r hres
      simp only [parseOutboundFiles]
      exact foldl_parseStep_resolved fsExists maps _ _ cap r hcap hres
    · intro hres
      simp only [parseOutboundFiles]
      exact foldl_parseStep_unresolved fsExists maps _ _ cap hcap hres
  · intro hnone
    have hclean := scanTagsF_clean_of_no_caps text.data.length text.data hnone
    refine ⟨?_, ?_, ?_⟩
    · simp only [parseOutboundFiles, scanTags] at *
      rw [hclean]
    · simp only [parseOutboundFiles, scanTags] at *
      rw [hnone]
      rfl
    · simp only [parseOutboundFiles, scanTags] at *
      rw [hnone]
      rfl
  · intro clean missing hne
    refine ⟨?_, ?_⟩
    · simp only [appendMissingWarning]
      rw [if_pos (by simpa [List.length_pos] using hne)]
    · rw [List.length_take]
      omega

/-- C7 witness: the tag path `/workspace/out.png` does not exist on the
host, but the mapping `/workspace → /host/ws` rewrites it to
`/host/ws/out.png`, which exists and is used. -/
theorem outbound_file_resolution_spec_witness :
    ∃ h, resolveSandboxPath (fun s => s == "/host/ws/out.png") "/workspace/out.png"
        [{ containerPrefix := "/workspace", hostPrefix := "/host/ws" }] = some h ∧
      (fun s => s == "/host/ws/out.png") h = true ∧
      ∃ m' ∈ [{ containerPrefix := "/workspace", hostPrefix := "/host/ws" : SandboxPathMapping }],
        mappingMatches m' (jsTrim "/workspace/out.png") = true ∧
        h = rewritePath m' (jsTrim "/workspace/out.png") :=
  (outbound_file_resolution_spec (fun s => s == "/host/ws/out.png")
    [{ containerPrefix := "/workspace", hostPrefix := "/host/ws" }]
    "/workspace/out.png" ""
    { containerPrefix := "/workspace", hostPrefix := "/host/ws" }).2.1
    (by decide) (by decide) (by simp) (by decide) (by decide)

/-- C10: a tagged path that is not absolute after trimming never
resolves (for any mapping list), and its processing step leaves the
file set unchanged while appending the trimmed path to the missing
list. -/
theorem relative_send_file_path_missing (fsExists : String → Bool)
    (maps : List SandboxPathMapping) (p : String) (acc : List String × List String)
    (cap : List Char) :
    (isAbsolutePath (jsTrim p) = false → resolveSandboxPath fsExists p maps = none)
    ∧ (isAbsolutePath (jsTrim (String.mk cap)) = false →
        parseStep fsExists maps acc cap = (acc.1, acc.2 ++ [jsTrim (String.mk cap)])) := by
  constructor
  · intro habs
    simp [resolveSandboxPath, habs]
  · intro habs
    have habs' : isAbsolutePath (jsTrim (jsTrim (String.mk cap))) = false := by
      rw [jsTrim_idem]
      exact habs
    have hres : resolveSandboxPath fsExists (jsTrim (String.mk cap)) maps = none := by
      simp [resolveSandboxPath, habs']
    simp [parseStep, hres]

/-- C10 witness: the relative tag path `out/result.png` resolves to
nothing and is pushed onto the missing list, leaving files unchanged. -/
theorem relative_send_file_path_missing_witness :
    resolveSandboxPath (fun _ => true) "out/result.png" [] = none ∧
    parseStep (fun _ => true) [] (["/kept.png"], []) "out/result.png".data =
      (["/kept.png"], [] ++ [jsTrim (String.mk "out/result.png".data)]) :=
  ⟨(relative_send_file_path_missing (fun _ => true) [] "out/result.png"
      (["/kept.png"], []) "out/result.png".data).1 (by decide),
   (relative_send_file_path_missing (fun _ => true) [] "out/result.png"
      (["/kept.png"], []) "out/result.png".data).2 (by decide)⟩

end Tinyclaw
